import Mathlib

/-!
A shallow embedding of the interaction-discovery / DOM-diffing engine of the
ai-jherkin-generator repository (src/src/element_analyzer.py and the probe
loops of src/main.py), together with proofs and refutations of the frozen
claims about it.

Modelling conventions:

* A parsed HTML document (a BeautifulSoup tree) is a rose tree `Dom`.  To keep
  every recursion plainly structural (so concrete instances evaluate inside
  the kernel), the child list of an element is itself a `Dom` built from
  `Dom.nil` / `Dom.cons` — a spine of siblings.  Concrete documents are built
  with the `kids` helper.
* Python `str.strip()` / `str.split()` / `in` (substring) / `str.lower()` are
  re-implemented over `List Char` (`trimChars`, `wordsAux`, `isInfixB`,
  `lowerStr`), because the corresponding core `String` operations are defined
  by well-founded recursion and do not reduce definitionally.
* bs4 `Tag.get_text(strip=True)` joins the stripped descendant strings with no
  separator, skipping empty ones: `getText`.
* bs4 `Tag.__eq__` is deep content equality (same name, attributes, children),
  and `Tag` objects are stored in Python `set`s whose iteration order depends
  on the per-process string-hash seed.  Where the source iterates such a set
  (`find_potential_interactive_elements`, the structural-diff fallback of
  `compare_doms`), the embedding takes the canonical insertion-ordered list
  and applies an explicit iteration-order parameter (`iter` / `sIter`); a run
  of the program corresponds to instantiating it with some permutation.
* Python floats appear only in `new_words > max(1, len(words) * 0.25)`, which
  is exact and encoded as `2 ≤ new_words ∧ len(words) < 4 * new_words`.
-/

/-! ## Character-level re-implementations of the Python string primitives -/

/-- Python `str.strip()` (used by bs4 with ASCII whitespace). -/
def trimChars (l : List Char) : List Char :=
  ((l.dropWhile Char.isWhitespace).reverse.dropWhile Char.isWhitespace).reverse

/-- Python `str.strip()` on `String`. -/
def pyStrip (s : String) : String := ⟨trimChars s.toList⟩

/-- Python `str.lower()`. -/
def lowerStr (s : String) : String := ⟨s.toList.map Char.toLower⟩

/-- Accumulator pass behind `wordsChars`: splits on whitespace runs,
dropping empty chunks, exactly like Python `str.split()` with no argument. -/
def wordsAux : List Char → List Char → List (List Char)
  | [], acc => if acc.isEmpty then [] else [acc.reverse]
  | c :: cs, acc =>
    if c.isWhitespace then
      if acc.isEmpty then wordsAux cs [] else acc.reverse :: wordsAux cs []
    else wordsAux cs (c :: acc)

/-- Python `str.split()` over a character list. -/
def wordsChars (l : List Char) : List (List Char) := wordsAux l []

/-- Python `str.split()` on `String`. -/
def pyWords (s : String) : List String := (wordsChars s.toList).map fun w => (⟨w⟩ : String)

/-- Python substring test `needle in hay`, on character lists. -/
def isInfixB (needle hay : List Char) : Bool :=
  match hay with
  | [] => needle.isEmpty
  | _ :: t => needle.isPrefixOf hay || isInfixB needle t

/-- Python substring test `w in t` on `String`. -/
def strContains (t w : String) : Bool := isInfixB w.toList t.toList

/-- Python `' '.join(text.split())`, the whitespace collapsing of
`ElementAnalyzer._get_element_text`. -/
def collapseWs (s : String) : String := String.intercalate " " (pyWords s)

/-! ## The DOM model -/

/-- A parsed markup tree.  `text` is a bs4 NavigableString, `elem` a Tag with
its attribute list; an element's `children` is a sibling spine built from
`nil` and `cons`.  The flat four-constructor shape keeps all recursion
structural. -/
inductive Dom where
  | text (s : String)
  | elem (tag : String) (attrs : List (String × String)) (children : Dom)
  | nil
  | cons (hd tl : Dom)
deriving DecidableEq

/-- Build a sibling spine from a list (helper for writing concrete trees). -/
def kids (l : List Dom) : Dom := l.foldr Dom.cons Dom.nil

/-- Tag name of an element (bs4 `Tag.name`); empty for non-elements. -/
def Dom.tagName : Dom → String
  | .elem t _ _ => t
  | _ => ""

/-- Attribute lookup, bs4 `Tag.get(key)` returning `None` when absent. -/
def Dom.attr? : Dom → String → Option String
  | .elem _ attrs _, k => (attrs.find? (fun p => p.1 == k)).map (·.2)
  | _, _ => none

/-- bs4 `Tag.get(key, default)` for string-valued attributes. -/
def Dom.attrD (n : Dom) (k d : String) : String := (n.attr? k).getD d

/-- bs4 `Tag.get('class', [])`: the class attribute split on whitespace. -/
def Dom.classList (n : Dom) : List String := pyWords (n.attrD "class" "")

/-- The stripped descendant strings of a node, in document order
(bs4 `Tag._all_strings(strip=True)` before the empty-string filter). -/
def domStrings : Dom → List String
  | .text s => [pyStrip s]
  | .elem _ _ cs => domStrings cs
  | .nil => []
  | .cons h t => domStrings h ++ domStrings t

/-- bs4 `Tag.get_text(strip=True)`: stripped descendant strings joined with
no separator, empties skipped. -/
def getText (n : Dom) : String := String.join ((domStrings n).filter (· ≠ ""))

/-- All element nodes of a subtree in document (preorder) order, each paired
with its ancestor chain (nearest first).  bs4 `find_all(True)` document
order. -/
def domAnc : List Dom → Dom → List (List Dom × Dom)
  | _, .text _ => []
  | anc, .elem t a cs => (anc, .elem t a cs) :: domAnc (.elem t a cs :: anc) cs
  | _, .nil => []
  | anc, .cons h tl => domAnc anc h ++ domAnc anc tl

/-- All element nodes of a document in document order (`find_all(True)`). -/
def domElems (root : Dom) : List Dom := (domAnc [] root).map (·.2)

/-- The strict descendants of a container in document order
(bs4 `Tag.find_all` / `Tag.select` search below the tag itself). -/
def Dom.strictDesc : Dom → List Dom
  | .elem _ _ cs => domElems cs
  | _ => []

/-- The element nodes laid directly on a sibling spine (no descent). -/
def spineElems : Dom → List Dom
  | .cons h t =>
    (match h with
     | .elem tg a cs => [Dom.elem tg a cs]
     | _ => []) ++ spineElems t
  | .elem tg a cs => [Dom.elem tg a cs]
  | _ => []

/-- The direct element children of a container, in order.  This models the
`for child in container.children: if hasattr(child, 'get_text')` filter of the
source, which selects Tag children. -/
def Dom.childElems : Dom → List Dom
  | .elem _ _ cs => spineElems cs
  | _ => []

/-- Number of direct children (bs4 `Tag.__len__ = len(self.contents)`). -/
def Dom.spineLen : Dom → Nat
  | .cons _ t => 1 + t.spineLen
  | .nil => 0
  | _ => 1

/-- Python truthiness of a bs4 node: a Tag is truthy iff it has contents,
a string iff it is non-empty. -/
def Dom.truthy : Dom → Bool
  | .elem _ _ cs => cs.spineLen != 0
  | .text s => s ≠ ""
  | .nil => false
  | .cons _ _ => true

/-! ## The CSS selector subset used by the source -/

/-- The simple CSS selectors appearing in element_analyzer.py. -/
inductive CssAtom where
  | tagSel (t : String)
  | tagAttrPresent (t a : String)
  | tagAttrSub (t a sub : String)
  | attrEq (a v : String)
  | attrSub (a sub : String)
  | classHas (c : String)

/-- A selector is either simple or a single descendant combinator
(`"nav a"`). -/
inductive CssSel where
  | atom (s : CssAtom)
  | inside (anc child : CssAtom)

/-- Attribute value used for CSS attribute matching; soupsieve joins the
multi-valued `class` attribute with single spaces. -/
def attrForMatch (n : Dom) (a : String) : Option String :=
  if a == "class" then (n.attr? "class").map (fun _ => String.intercalate " " n.classList)
  else n.attr? a

def matchAtom (n : Dom) : CssAtom → Bool
  | .tagSel t => n.tagName == t
  | .tagAttrPresent t a => n.tagName == t && (n.attr? a).isSome
  | .tagAttrSub t a sub =>
    n.tagName == t &&
      (match attrForMatch n a with
       | some v => strContains v sub
       | none => false)
  | .attrEq a v => attrForMatch n a == some v
  | .attrSub a sub =>
    (match attrForMatch n a with
     | some v => strContains v sub
     | none => false)
  | .classHas c => n.classList.contains c

def matchSel (anc : List Dom) (n : Dom) : CssSel → Bool
  | .atom s => matchAtom n s
  | .inside a c => matchAtom n c && anc.any (fun p => matchAtom p a)

/-- `soup.select(selector)`: matching elements in document order. -/
def selectCss (root : Dom) (sel : CssSel) : List Dom :=
  (domAnc [] root).filterMap fun p => if matchSel p.1 p.2 sel then some p.2 else none

/-! ## ElementAnalyzer.find_potential_interactive_elements -/

/-- The selector list of `find_potential_interactive_elements`. -/
def interactiveSelectors : List CssSel :=
  [ .inside (.tagSel "nav") (.tagSel "a"),
    .inside (.tagSel "nav") (.tagSel "button"),
    .inside (.tagSel "nav") (.tagSel "li"),
    .inside (.tagSel "header") (.tagSel "a"),
    .inside (.tagSel "header") (.tagSel "button"),
    .atom (.attrEq "role" "button"),
    .atom (.attrEq "role" "menuitem"),
    .atom (.tagAttrPresent "a" "href"),
    .atom (.tagSel "button"),
    .atom (.tagAttrPresent "div" "onclick"),
    .atom (.tagAttrPresent "div" "onmouseover"),
    .atom (.attrSub "class" "menu"),
    .atom (.attrSub "class" "nav"),
    .atom (.attrSub "class" "dropdown"),
    .atom (.attrSub "class" "link") ]

/-- First-occurrence deduplication with an explicit seen list; models growing
a Python `set` while iterating (`if element not in found_elements: add`). -/
def dedupSeen [BEq α] : List α → List α → List α
  | [], _ => []
  | a :: as, seen => if seen.contains a then dedupSeen as seen else a :: dedupSeen as (a :: seen)

def dedupKeepFirst [BEq α] (l : List α) : List α := dedupSeen l []

/-- The `found_elements` set of `find_potential_interactive_elements` in
insertion order: all selector matches in selector-list order, deduplicated by
bs4 content equality. -/
def foundElements (root : Dom) : List Dom :=
  dedupKeepFirst ((interactiveSelectors.map (selectCss root)).flatten)

/-- The candidate-element record built by
`find_potential_interactive_elements` (`{"text","tag","classes","id"}`). -/
structure Candidate where
  text : String
  tag : String
  classes : List String
  id : String
deriving DecidableEq

/-- The main loop of `find_potential_interactive_elements`: iterate the
`found_elements` set, keep elements with non-empty collapsed text shorter
than 200 characters.  `iter` is the iteration order of the Python set (a
permutation of the insertion-ordered list, determined by the process's hash
seed). -/
def fpieMain (root : Dom) (iter : List Dom → List Dom) : List Candidate :=
  (iter (foundElements root)).filterMap fun el =>
    let t := collapseWs (getText el)
    if t ≠ "" ∧ t.length < 200 then
      some ⟨t, el.tagName, el.classList, el.attrD "id" ""⟩
    else none

/-- The fallback of `find_potential_interactive_elements`:
`soup.find_all(['a', 'button'])` with only the non-empty-text filter. -/
def fpieFallback (root : Dom) : List Candidate :=
  ((domElems root).filter fun el => el.tagName == "a" || el.tagName == "button").filterMap
    fun el =>
      let t := collapseWs (getText el)
      if t ≠ "" then some ⟨t, el.tagName, el.classList, el.attrD "id" ""⟩ else none

/-- `ElementAnalyzer.find_potential_interactive_elements`. -/
def find_potential_interactive_elements (root : Dom)
    (iter : List Dom → List Dom) : List Candidate :=
  if (fpieMain root iter).isEmpty then fpieFallback root else fpieMain root iter

/-! ## ElementAnalyzer.compare_doms -/

/-- `initial_texts`: the non-empty stripped texts of every tag of a document
(the same construction opens both `compare_doms` and `analyze_modal_dialog`). -/
def docTexts (root : Dom) : List String :=
  (domElems root).filterMap fun el =>
    let t := getText el
    if t ≠ "" then some t else none

/-- The RevealedItem record of `compare_doms` (`{"text","tag","href","classes"}`). -/
structure Revealed where
  text : String
  tag : String
  href : String
  classes : List String
deriving DecidableEq

/-- `final_soup.find_all(['a','button','div','span'])` with ancestor chains. -/
def cdTargets (root : Dom) : List (List Dom × Dom) :=
  (domAnc [] root).filter fun p =>
    p.2.tagName == "a" || p.2.tagName == "button" || p.2.tagName == "div" || p.2.tagName == "span"

/-- The textual-diff loop of `compare_doms`, with the `seen_texts` set. -/
def cdLoop (initTexts : List String) : List (List Dom × Dom) → List String → List Revealed
  | [], _ => []
  | (anc, n) :: rest, seen =>
    let t := getText n
    if t == "" || seen.contains t then cdLoop initTexts rest seen
    else if !(initTexts.contains t) then
      let href :=
        if n.tagName == "a" then n.attrD "href" ""
        else
          match anc.find? (fun p => p.tagName == "a") with
          | some p => p.attrD "href" ""
          | none => ""
      ⟨t, n.tagName, href, n.classList⟩ :: cdLoop initTexts rest (t :: seen)
    else cdLoop initTexts rest seen

/-- The `(tag name, class tuple)` structural signature of a tag. -/
def sigOf (n : Dom) : String × List String := (n.tagName, n.classList)

/-- The structural-diff set `final_tags - initial_tags` as its canonical
document-ordered duplicate-free list. -/
def newSigs (initial final : Dom) : List (String × List String) :=
  dedupKeepFirst
    (((domElems final).map sigOf).filter fun s => !(((domElems initial).map sigOf).contains s))

/-- `ElementAnalyzer.compare_doms`.  `sIter` is the iteration order of the
Python set `new_struct` in `list(new_struct)[:10]` (a permutation of
`newSigs`, determined by the process's hash seed). -/
def compare_doms (initial final : Dom)
    (sIter : List (String × List String) → List (String × List String)) : List Revealed :=
  let base := cdLoop (docTexts initial) (cdTargets final) []
  if base.isEmpty then
    ((sIter (newSigs initial final)).take 10).map fun s => ⟨"", s.1, "", s.2⟩
  else base

/-! ## ElementAnalyzer.analyze_modal_dialog -/

/-- The modal selector list of `analyze_modal_dialog`. -/
def modalSelectors : List CssSel :=
  [ .atom (.attrEq "role" "dialog"),
    .atom (.attrEq "role" "alertdialog"),
    .atom (.classHas "modal"),
    .atom (.classHas "popup"),
    .atom (.classHas "dialog"),
    .atom (.attrSub "class" "modal"),
    .atom (.attrSub "class" "popup"),
    .atom (.attrSub "class" "dialog"),
    .atom (.attrSub "class" "overlay"),
    .atom (.tagAttrSub "div" "style" "fixed"),
    .atom (.tagAttrSub "div" "style" "absolute") ]

/-- `potential_modals`: the concatenated selector matches (duplicates kept,
as `extend` keeps them). -/
def potentialModals (final : Dom) : List Dom :=
  (modalSelectors.map (selectCss final)).flatten

/-- `sum(1 for w in words if all(w not in t for t in initial_texts))`. -/
def newWordCount (initTexts : List String) (t : String) : Nat :=
  ((pyWords t).filter fun w => initTexts.all fun tx => !(strContains tx w)).length

/-- The selector-path acceptance test of `analyze_modal_dialog`:
`el_text and len(el_text) > 10` and the new-word heuristic
`new_words > max(1, len(words) * 0.25)`, encoded exactly as
`2 ≤ new_words ∧ len(words) < 4 * new_words`. -/
def modalAccept (initTexts : List String) (el : Dom) : Bool :=
  let t := getText el
  (t != "") && decide (10 < t.length) &&
    (let nw := newWordCount initTexts t
     decide (2 ≤ nw) && decide ((pyWords t).length < 4 * nw))

/-- The fallback scan `final_soup.find_all(['div','section','aside'])`. -/
def fallbackTags (root : Dom) : List Dom :=
  (domElems root).filter fun el =>
    el.tagName == "div" || el.tagName == "section" || el.tagName == "aside"

/-- The fallback acceptance test:
`tag_text and len(tag_text) > 30 and tag_text not in initial_texts`. -/
def fallbackAccept (initTexts : List String) (el : Dom) : Bool :=
  let t := getText el
  (t != "") && decide (30 < t.length) && !(initTexts.contains t)

/-- A button record of a ModalFinding (`{"text","tag","type","href"}`). -/
structure ModalButton where
  text : String
  tag : String
  type : String
  href : String
deriving DecidableEq

/-- The ModalFinding record (`{"title","full_text","buttons"}`). -/
structure ModalFinding where
  title : String
  full_text : String
  buttons : List ModalButton
deriving DecidableEq

/-- The button selector
`"button, a[role='button'], a, input[type='button'], input[type='submit']"`
(the `a[role='button']` alternative is subsumed by `a`). -/
def isModalButtonSel (n : Dom) : Bool :=
  n.tagName == "button" || n.tagName == "a" ||
    (n.tagName == "input" && (n.attr? "type" == some "button" || n.attr? "type" == some "submit"))

/-- The button-extraction loop with its `seen_button_texts` set:
keep a button iff its text is non-empty, unseen, and shorter than 80. -/
def buttonsLoop : List Dom → List String → List ModalButton
  | [], _ => []
  | b :: bs, seen =>
    let t := getText b
    if t ≠ "" ∧ !(seen.contains t) ∧ t.length < 80 then
      ⟨t, b.tagName, b.attrD "type" "", b.attrD "href" ""⟩ :: buttonsLoop bs (t :: seen)
    else buttonsLoop bs seen

def extractButtons (container : Dom) : List ModalButton :=
  buttonsLoop (container.strictDesc.filter isModalButtonSel) []

/-- The heading-priority title scan: `container.find(h)` for h in h1..h4,
accepting the first found tag that is truthy (bs4 Tag truthiness is
`len(contents) > 0`, so an empty heading does not break the loop). -/
def modalTitleHeading (container : Dom) : String :=
  match ["h1", "h2", "h3", "h4"].findSome? (fun h =>
      match container.strictDesc.find? (fun d => d.tagName == h) with
      | some d => if d.truthy then some (getText d) else none
      | none => none) with
  | some t => t
  | none => ""

/-- Title resolution: heading scan, then first direct Tag child whose text t
satisfies `t and 1 < len(t) < 200`. -/
def modalTitle (container : Dom) : String :=
  let t1 := modalTitleHeading container
  if t1 ≠ "" then t1
  else
    match container.childElems.findSome? (fun c =>
        let t := getText c
        if t ≠ "" ∧ 1 < t.length ∧ t.length < 200 then some t else none) with
    | some t => t
    | none => ""

/-- The record returned once a modal container is accepted. -/
def extractFinding (container : Dom) : ModalFinding :=
  { title := modalTitle container
    full_text := getText container
    buttons := extractButtons container }

/-- `ElementAnalyzer.analyze_modal_dialog`: first accepted selector-path
candidate, else first accepted fallback container, else `None`. -/
def analyze_modal_dialog (initial final : Dom) : Option ModalFinding :=
  let initTexts := docTexts initial
  match (potentialModals final).find? (modalAccept initTexts) with
  | some el => some (extractFinding el)
  | none =>
    match (fallbackTags final).find? (fallbackAccept initTexts) with
    | some el => some (extractFinding el)
    | none => none

/-! ## The probe loops of main.py (generate_tests) -/

/-- The result of `browser.click_and_get_changes`: the `skipped` / `navigated`
flags and the parsed initial/final snapshots. -/
structure ClickChanges where
  skipped : Bool
  navigated : Bool
  initial : Dom
  final : Dom

/-- The result of `browser.hover_and_get_changes`. -/
structure HoverChanges where
  initial : Dom
  final : Dom

/-- The `interaction_data` dictionary handed to
`LLMService.generate_gherkin_scenario`. -/
inductive Interaction where
  | popup (url : String) (clickElement : Candidate) (modal : ModalFinding)
  | hoverMenu (url : String) (hoverElement : Candidate) (revealed : List Revealed)

/-- The clickable-tag filter `el['tag'] in ['a', 'button']`. -/
def isClickableTag (c : Candidate) : Bool := c.tag == "a" || c.tag == "button"

/-- The popup pass of `generate_tests` over the (already truncated) candidate
list.  `goTo` models the per-candidate re-navigation, `click` the probe, and
`writeScenario` the `LLMService` construction plus scenario generation; an
`Except.error` is an exception caught by the per-candidate handler.  The loop
appends at most one scenario and breaks on it (`if scenario: ... break`),
where Python truthiness of the scenario string is non-emptiness. -/
def clickLoop {E : Type} (url : String) (goTo : Candidate → Except E Unit)
    (click : Candidate → Except E ClickChanges)
    (writeScenario : Interaction → Except E String) : List Candidate → Option String
  | [] => none
  | c :: cs =>
    match goTo c with
    | .error _ => clickLoop url goTo click writeScenario cs
    | .ok _ =>
      match click c with
      | .error _ => clickLoop url goTo click writeScenario cs
      | .ok ch =>
        if ch.skipped then clickLoop url goTo click writeScenario cs
        else if ch.navigated then clickLoop url goTo click writeScenario cs
        else
          match analyze_modal_dialog ch.initial ch.final with
          | some m =>
            if !m.buttons.isEmpty then
              match writeScenario (.popup url c m) with
              | .error _ => clickLoop url goTo click writeScenario cs
              | .ok s => if s ≠ "" then some s else clickLoop url goTo click writeScenario cs
            else clickLoop url goTo click writeScenario cs
          | none => clickLoop url goTo click writeScenario cs

/-- The hover pass of `generate_tests` over the (already truncated) candidate
list, instrumented to also return the list of candidates actually probed (in
probe order).  The source calls `compare_doms` twice when the first call
yields nothing (lines 117-119); both calls are modelled with the same
snapshots and iteration order. -/
def hoverLoop {E : Type} (url : String) (hover : Candidate → Except E HoverChanges)
    (writeScenario : Interaction → Except E String)
    (sIter : List (String × List String) → List (String × List String)) :
    List Candidate → List Candidate × Option String
  | [] => ([], none)
  | c :: cs =>
    match hover c with
    | .error _ =>
      let r := hoverLoop url hover writeScenario sIter cs
      (c :: r.1, r.2)
    | .ok ch =>
      let firstDiff := compare_doms ch.initial ch.final sIter
      let newly := if firstDiff.isEmpty then compare_doms ch.initial ch.final sIter else firstDiff
      if !newly.isEmpty then
        match writeScenario (.hoverMenu url c newly) with
        | .error _ =>
          let r := hoverLoop url hover writeScenario sIter cs
          (c :: r.1, r.2)
        | .ok s =>
          if s ≠ "" then ([c], some s)
          else
            let r := hoverLoop url hover writeScenario sIter cs
            (c :: r.1, r.2)
      else
        let r := hoverLoop url hover writeScenario sIter cs
        (c :: r.1, r.2)

/-- The hover pass with its enumeration bound `interactive_elements[:30]`. -/
def hoverPhase {E : Type} (url : String) (hover : Candidate → Except E HoverChanges)
    (writeScenario : Interaction → Except E String)
    (sIter : List (String × List String) → List (String × List String))
    (l : List Candidate) : List Candidate × Option String :=
  hoverLoop url hover writeScenario sIter (l.take 30)

/-- The scenario list accumulated by one `generate_tests` run: the popup pass
over `clickable_elements[:20]` followed by the hover pass over
`interactive_elements[:30]` (each pass contributes at most one scenario). -/
def generate_tests {E : Type} (url : String) (goTo : Candidate → Except E Unit)
    (click : Candidate → Except E ClickChanges)
    (writeScenario : Interaction → Except E String)
    (hover : Candidate → Except E HoverChanges)
    (sIter : List (String × List String) → List (String × List String))
    (clickCandidates hoverCandidates : List Candidate) : List String :=
  (clickLoop url goTo click writeScenario ((clickCandidates.filter isClickableTag).take 20)).toList
    ++ (hoverPhase url hover writeScenario sIter hoverCandidates).2.toList

/-! ## Definitions modelled from the spec (for refutation statements only) -/

/-- Modelled from the spec: the button keyword gate of its ModalDetector
step 3 — the buttons' texts, lowercased and joined, must contain one of the
listed keywords.  The source has no such check; this definition exists only
to state that divergence. -/
def specButtonKeywordGate (buttons : List ModalButton) : Bool :=
  let joined := lowerStr (String.intercalate " " (buttons.map (·.text)))
  ["cancel", "close", "ok", "continue", "stay", "leave", "yes", "no"].any fun k =>
    strContains joined k

/-- Modelled from the spec: the noise-keyword match its SnapshotDiffer is said
to apply to revealed texts.  The source applies no such filter; this
definition exists only to state that divergence. -/
def specNoiseKeyword (t : String) : Bool :=
  ["video", "supported", "unavailable", "loading", "advertisement"].any fun k =>
    strContains (lowerStr t) k

/-! ## Concrete documents used by counterexamples and witnesses -/

/-- An initial page with an empty body. -/
def docInit : Dom := .elem "html" [] (kids [.elem "body" [] (kids [])])

/-- A final page whose modal container carries fresh text but no button. -/
def docModalNoBtn : Dom :=
  .elem "html" [] (kids
    [ .elem "body" [] (kids
        [ .elem "div" [("class", "modal")] (kids
            [ .elem "h2" [] (kids [.text "Heads up"]),
              .text "Totally fresh content" ]) ]) ])

/-- A final page whose modal container has one link button whose text has no
spec keyword. -/
def docModalBtn : Dom :=
  .elem "html" [] (kids
    [ .elem "body" [] (kids
        [ .elem "div" [("class", "modal")] (kids
            [ .elem "h2" [] (kids [.text "Special offer"]),
              .text "Brand new deal today",
              .elem "a" [("href", "/go")] (kids [.text "Details page"]) ]) ]) ])

/-- A final page revealing one anchor whose text is a spec noise keyword. -/
def docNoise : Dom :=
  .elem "html" [] (kids
    [ .elem "body" [] (kids
        [ .elem "a" [("href", "/x")] (kids [.text "loading"]) ]) ])

/-- A final page adding eleven structurally new classed divs (more than the
`[:10]` structural-diff bound). -/
def docStruct : Dom :=
  .elem "html" [] (kids
    [ .elem "body" [] (kids
        ((List.range 11).map fun i =>
          .elem "div" [("class", String.mk (List.replicate (i + 1) 'c'))] (kids []))) ])

/-- A page with two content-distinct anchors sharing text and href. -/
def docDup : Dom :=
  .elem "html" [] (kids
    [ .elem "body" [] (kids
        [ .elem "a" [("href", "/x")] (kids [.text "Home"]),
          .elem "a" [("href", "/x")] (kids [.elem "span" [] (kids [.text "Home"])]) ]) ])


/-! ## Helper lemmas: substring and word facts -/

theorem isInfixB_iff (n h : List Char) : isInfixB n h = true ↔ n <:+: h := by
  induction h with
  | nil =>
    simp only [isInfixB, List.isEmpty_iff]
    constructor
    · rintro rfl; exact List.infix_rfl
    · intro hh; exact List.sublist_nil.mp hh.sublist
  | cons a t ih =>
    simp only [isInfixB, Bool.or_eq_true, ih, List.infix_cons_iff, List.isPrefixOf_iff_prefix]

theorem mem_wordsAux_sub :
    ∀ (l acc w : List Char), w ∈ wordsAux l acc → w <:+: (acc.reverse ++ l) := by
  intro l
  induction l with
  | nil =>
    intro acc w h
    by_cases he : acc.isEmpty
    · simp [wordsAux, he] at h
    · simp [wordsAux, he] at h
      subst h
      simp
  | cons c cs ih =>
    intro acc w h
    by_cases hw : c.isWhitespace
    · by_cases he : acc.isEmpty
      · rw [wordsAux, if_pos hw, if_pos he] at h
        have hacc : acc = [] := List.isEmpty_iff.mp he
        subst hacc
        have := ih [] w h
        simp only [List.reverse_nil, List.nil_append] at this ⊢
        exact this.trans (List.suffix_cons c cs).isInfix
      · rw [wordsAux, if_pos hw, if_neg he] at h
        rcases List.mem_cons.mp h with h | h
        · subst h
          exact (List.prefix_append acc.reverse (c :: cs)).isInfix
        · have := ih [] w h
          simp only [List.reverse_nil, List.nil_append] at this
          exact ((this.trans (List.suffix_cons c cs).isInfix).trans
            (List.suffix_append acc.reverse (c :: cs)).isInfix)
    · rw [wordsAux, if_neg hw] at h
      have := ih (c :: acc) w h
      simpa [List.append_assoc] using this

theorem mem_wordsChars_sub (l w : List Char) (h : w ∈ wordsChars l) : w <:+: l := by
  have := mem_wordsAux_sub l [] w h
  simpa using this

theorem strContains_of_mem_pyWords (t w : String) (h : w ∈ pyWords t) :
    strContains t w = true := by
  obtain ⟨wc, hwc, rfl⟩ := List.mem_map.mp h
  exact (isInfixB_iff wc t.toList).mpr (mem_wordsChars_sub t.toList wc hwc)

/-! ## Helper lemmas: membership facts about the DOM scans -/

theorem mem_docTexts (root n : Dom) (hn : n ∈ domElems root) (ht : getText n ≠ "") :
    getText n ∈ docTexts root := by
  unfold docTexts
  exact List.mem_filterMap.mpr ⟨n, hn, by simp [ht]⟩

theorem docTexts_ne_empty (root : Dom) (t : String) (h : t ∈ docTexts root) : t ≠ "" := by
  unfold docTexts at h
  obtain ⟨n, _, hv⟩ := List.mem_filterMap.mp h
  simp only [] at hv
  by_cases he : getText n = ""
  · simp [he] at hv
  · rw [if_pos he] at hv
    cases hv
    exact he

theorem mem_selectCss (root : Dom) (sel : CssSel) (n : Dom) (h : n ∈ selectCss root sel) :
    n ∈ domElems root := by
  unfold selectCss at h
  obtain ⟨p, hp, hv⟩ := List.mem_filterMap.mp h
  by_cases hm : matchSel p.1 p.2 sel
  · simp only [if_pos hm, Option.some.injEq] at hv
    exact hv ▸ List.mem_map.mpr ⟨p, hp, rfl⟩
  · simp [if_neg hm] at hv

theorem mem_potentialModals (final n : Dom) (h : n ∈ potentialModals final) :
    n ∈ domElems final := by
  unfold potentialModals at h
  obtain ⟨l, hl, hn⟩ := List.mem_flatten.mp h
  obtain ⟨sel, _, rfl⟩ := List.mem_map.mp hl
  exact mem_selectCss final sel n hn

theorem mem_fallbackTags (root n : Dom) (h : n ∈ fallbackTags root) : n ∈ domElems root :=
  (List.mem_filter.mp h).1

/-! ## Helper lemmas: the acceptance tests reject everything already present -/

theorem newWordCount_self_zero (texts : List String) (t : String) (ht : t ∈ texts) :
    newWordCount texts t = 0 := by
  unfold newWordCount
  rw [List.length_eq_zero]
  rw [List.filter_eq_nil_iff]
  intro w hw
  intro hall
  have := (List.all_eq_true.mp hall) t ht
  rw [strContains_of_mem_pyWords t w hw] at this
  simp at this

theorem modalAccept_self (S el : Dom) (h : el ∈ domElems S) :
    modalAccept (docTexts S) el = false := by
  by_cases ht : getText el = ""
  · simp [modalAccept, ht]
  · have h0 := newWordCount_self_zero (docTexts S) (getText el) (mem_docTexts S el h ht)
    simp [modalAccept, h0]

theorem fallbackAccept_self (S el : Dom) (h : el ∈ domElems S) :
    fallbackAccept (docTexts S) el = false := by
  by_cases ht : getText el = ""
  · simp [fallbackAccept, ht]
  · have hmem : getText el ∈ docTexts S := mem_docTexts S el h ht
    have hc : (docTexts S).contains (getText el) = true := List.elem_eq_true_of_mem hmem
    simp [fallbackAccept, hc, hmem]

/-- C5: running the modal detector on an identical snapshot pair returns
null — no container can be classified as newly appeared relative to itself,
through either the selector path or the large-new-container fallback. -/
theorem claim_C5_detect_self_none (S : Dom) : analyze_modal_dialog S S = none := by
  unfold analyze_modal_dialog
  have h1 : (potentialModals S).find? (modalAccept (docTexts S)) = none := by
    rw [List.find?_eq_none]
    intro el hel
    simp [modalAccept_self S el (mem_potentialModals S el hel)]
  have h2 : (fallbackTags S).find? (fallbackAccept (docTexts S)) = none := by
    rw [List.find?_eq_none]
    intro el hel
    simp [fallbackAccept_self S el (mem_fallbackTags S el hel)]
  simp only [h1, h2]

/-! ## Helper lemmas: first-occurrence deduplication -/

theorem mem_dedupSeen_not_seen [BEq α] :
    ∀ (l seen : List α) (b : α), b ∈ dedupSeen l seen → seen.contains b = false := by
  intro l
  induction l with
  | nil => intro seen b h; simp [dedupSeen] at h
  | cons a as ih =>
    intro seen b h
    by_cases hs : seen.contains a
    · rw [dedupSeen, if_pos hs] at h
      exact ih seen b h
    · rw [dedupSeen, if_neg hs] at h
      rcases List.mem_cons.mp h with h | h
      · subst h
        exact Bool.eq_false_iff.mpr hs
      · have hcc := ih (a :: seen) b h
        rw [List.contains_cons] at hcc
        exact (Bool.or_eq_false_iff.mp hcc).2

theorem pairwise_dedupSeen [BEq α] :
    ∀ (l seen : List α), (dedupSeen l seen).Pairwise (fun x y => (y == x) = false) := by
  intro l
  induction l with
  | nil => intro seen; simp [dedupSeen]
  | cons a as ih =>
    intro seen
    by_cases hs : seen.contains a
    · rw [dedupSeen, if_pos hs]
      exact ih seen
    · rw [dedupSeen, if_neg hs]
      refine List.pairwise_cons.mpr ⟨?_, ih (a :: seen)⟩
      intro b hb
      have hcc := mem_dedupSeen_not_seen as (a :: seen) b hb
      rw [List.contains_cons] at hcc
      exact (Bool.or_eq_false_iff.mp hcc).1

/-- C7 (amended): the deduplication performed by
`find_potential_interactive_elements` is by whole-element content equality
(the bs4 `Tag.__eq__` semantics of the `found_elements` set), so the iterated
element list never contains two equal elements; it is not a deduplication by
(text, href), and identical candidate records can still repeat in the
output. -/
theorem claim_C7_found_elements_nodup (root : Dom) : (foundElements root).Nodup := by
  have h := pairwise_dedupSeen ((interactiveSelectors.map (selectCss root)).flatten) []
  exact h.imp fun {x y} hxy => (ne_of_beq_false hxy).symm

/-- C7 counterexample: on a page with two content-distinct anchors that share
text "Home" and href "/x", the candidate list contains two identical entries —
output is not deduplicated by (text, href). -/
theorem claim_C7_counterexample :
    find_potential_interactive_elements docDup id =
      [⟨"Home", "a", [], ""⟩, ⟨"Home", "a", [], ""⟩] := by decide

/-! ## Helper lemmas: the button-extraction loop -/

theorem buttonsLoop_mem :
    ∀ (bs : List Dom) (seen : List String) (b : ModalButton), b ∈ buttonsLoop bs seen →
      b.text ≠ "" ∧ b.text.length < 80 ∧ seen.contains b.text = false := by
  intro bs
  induction bs with
  | nil => intro seen b h; simp [buttonsLoop] at h
  | cons x xs ih =>
    intro seen b h
    by_cases hc : getText x ≠ "" ∧ !(seen.contains (getText x)) ∧ (getText x).length < 80
    · rw [buttonsLoop, if_pos hc] at h
      rcases List.mem_cons.mp h with h | h
      · subst h
        exact ⟨hc.1, hc.2.2, Bool.eq_false_iff.mpr (by simpa using hc.2.1)⟩
      · have h3 := ih (getText x :: seen) b h
        refine ⟨h3.1, h3.2.1, ?_⟩
        have := h3.2.2
        rw [List.contains_cons] at this
        exact (Bool.or_eq_false_iff.mp this).2
    · rw [buttonsLoop, if_neg hc] at h
      exact ih seen b h

theorem buttonsLoop_texts_nodup :
    ∀ (bs : List Dom) (seen : List String),
      ((buttonsLoop bs seen).map (fun b => b.text)).Nodup := by
  intro bs
  induction bs with
  | nil => intro seen; simp [buttonsLoop]
  | cons x xs ih =>
    intro seen
    by_cases hc : getText x ≠ "" ∧ !(seen.contains (getText x)) ∧ (getText x).length < 80
    · rw [buttonsLoop, if_pos hc]
      rw [List.map_cons, List.nodup_cons]
      constructor
      · intro hmem
        obtain ⟨b, hb, hbt⟩ := List.mem_map.mp hmem
        have h3 := buttonsLoop_mem xs (getText x :: seen) b hb
        have := h3.2.2
        rw [List.contains_cons] at this
        have hne := ne_of_beq_false (Bool.or_eq_false_iff.mp this).1
        exact hne hbt
      · exact ih (getText x :: seen)
    · rw [buttonsLoop, if_neg hc]
      exact ih seen

/-- C10: every button record inside a returned ModalFinding has non-empty
text shorter than 80 characters, and the button texts within one finding are
pairwise distinct. -/
theorem claim_C10_button_invariants (initial final : Dom) (f : ModalFinding)
    (h : analyze_modal_dialog initial final = some f) :
    (∀ b ∈ f.buttons, b.text ≠ "" ∧ b.text.length < 80) ∧
      (f.buttons.map (fun b => b.text)).Nodup := by
  have hbtn : ∃ container : Dom, f.buttons = extractButtons container := by
    unfold analyze_modal_dialog at h
    cases h1 : (potentialModals final).find? (modalAccept (docTexts initial)) with
    | some el =>
      simp only [h1] at h
      injection h with h
      subst h
      exact ⟨el, rfl⟩
    | none =>
      simp only [h1] at h
      cases h2 : (fallbackTags final).find? (fallbackAccept (docTexts initial)) with
      | some el =>
        simp only [h2] at h
        injection h with h
        subst h
        exact ⟨el, rfl⟩
      | none => simp only [h2] at h; cases h
  obtain ⟨container, hb⟩ := hbtn
  rw [hb]
  constructor
  · intro b hbm
    have := buttonsLoop_mem (container.strictDesc.filter isModalButtonSel) [] b hbm
    exact ⟨this.1, this.2.1⟩
  · exact buttonsLoop_texts_nodup (container.strictDesc.filter isModalButtonSel) []

/-- C10 witness: the invariants instantiated on the concrete modal page. -/
theorem claim_C10_button_invariants_witness :
    (∀ b ∈ (⟨"Special offer", "Special offerBrand new deal todayDetails page",
        [⟨"Details page", "a", "", "/go"⟩]⟩ : ModalFinding).buttons,
      b.text ≠ "" ∧ b.text.length < 80) ∧
      (((⟨"Special offer", "Special offerBrand new deal todayDetails page",
        [⟨"Details page", "a", "", "/go"⟩]⟩ : ModalFinding).buttons.map
          (fun b => b.text)).Nodup) :=
  claim_C10_button_invariants docInit docModalBtn _ (by decide)

/-! ## Helper lemmas: the textual diff loop -/

theorem cdLoop_not_initial (initTexts : List String) :
    ∀ (targets : List (List Dom × Dom)) (seen : List String) (r : Revealed),
      r ∈ cdLoop initTexts targets seen → initTexts.contains r.text = false := by
  intro targets
  induction targets with
  | nil => intro seen r h; simp [cdLoop] at h
  | cons p rest ih =>
    intro seen r h
    obtain ⟨anc, n⟩ := p
    by_cases h1 : getText n == "" || seen.contains (getText n)
    · rw [cdLoop, if_pos h1] at h
      exact ih seen r h
    · rw [cdLoop, if_neg h1] at h
      by_cases h2 : !(initTexts.contains (getText n))
      · rw [if_pos h2] at h
        rcases List.mem_cons.mp h with h | h
        · subst h
          simpa using h2
        · exact ih (getText n :: seen) r h
      · rw [if_neg h2] at h
        exact ih seen r h

/-- C4 (amended): every RevealedItem produced by `compare_doms` has text that
is not present among the initial snapshot's tag texts (the structural-diff
fallback emits empty texts, which are never tag texts); no noise-keyword
filtering of revealed texts is performed by the source. -/
theorem claim_C4_text_not_initial (initial final : Dom)
    (sIter : List (String × List String) → List (String × List String)) (r : Revealed)
    (h : r ∈ compare_doms initial final sIter) : ¬ r.text ∈ docTexts initial := by
  unfold compare_doms at h
  by_cases hbase : (cdLoop (docTexts initial) (cdTargets final) []).isEmpty
  · rw [if_pos hbase] at h
    obtain ⟨sg, _, hr⟩ := List.mem_map.mp h
    intro hmem
    have := docTexts_ne_empty initial r.text hmem
    rw [← hr] at this
    simp at this
  · rw [if_neg hbase] at h
    have hc := cdLoop_not_initial (docTexts initial) (cdTargets final) [] r h
    intro hmem
    have h2 : (docTexts initial).contains r.text = true := List.elem_eq_true_of_mem hmem
    rw [h2] at hc
    cases hc

/-- C4 counterexample: with an empty initial page and a final page revealing
an anchor whose text is the noise keyword "loading", `compare_doms` emits the
item anyway — the spec's noise-keyword exclusion does not exist in the code. -/
theorem claim_C4_counterexample :
    compare_doms docInit docNoise id = [⟨"loading", "a", "/x", []⟩] ∧
      specNoiseKeyword "loading" = true := by decide

/-- C4 witness: the amended theorem instantiated on the noise page. -/
theorem claim_C4_text_not_initial_witness :
    ¬ (⟨"loading", "a", "/x", []⟩ : Revealed).text ∈ docTexts docInit :=
  claim_C4_text_not_initial docInit docNoise id _ (by decide)

/-- C3 (amended): a ModalFinding is returned only when some candidate passes
one of the two acceptance gates actually present in the source — the
selector-path new-word heuristic (`modalAccept`) or the fallback
large-new-container test (`fallbackAccept`).  Neither gate inspects button
texts, so there is no keyword condition on the embedded buttons/links. -/
theorem claim_C3_acceptance_gates (initial final : Dom) (f : ModalFinding)
    (h : analyze_modal_dialog initial final = some f) :
    (∃ el ∈ potentialModals final, modalAccept (docTexts initial) el = true) ∨
      (∃ el ∈ fallbackTags final, fallbackAccept (docTexts initial) el = true) := by
  unfold analyze_modal_dialog at h
  cases h1 : (potentialModals final).find? (modalAccept (docTexts initial)) with
  | some el =>
    exact Or.inl ⟨el, List.mem_of_find?_eq_some h1, List.find?_some h1⟩
  | none =>
    simp only [h1] at h
    cases h2 : (fallbackTags final).find? (fallbackAccept (docTexts initial)) with
    | some el =>
      exact Or.inr ⟨el, List.mem_of_find?_eq_some h2, List.find?_some h2⟩
    | none => simp only [h2] at h; cases h

/-- C3 counterexample: `analyze_modal_dialog` accepts a container whose only
button text is "Details page", which contains none of the spec's keywords
(cancel, close, ok, continue, stay, leave, yes, no) — the keyword gate the
claim describes is absent from the code. -/
theorem claim_C3_counterexample :
    analyze_modal_dialog docInit docModalBtn =
      some ⟨"Special offer", "Special offerBrand new deal todayDetails page",
        [⟨"Details page", "a", "", "/go"⟩]⟩ ∧
      specButtonKeywordGate [⟨"Details page", "a", "", "/go"⟩] = false := by decide

/-- C3 witness: the amended theorem instantiated on the keyword-free modal
page. -/
theorem claim_C3_acceptance_gates_witness :
    (∃ el ∈ potentialModals docModalBtn, modalAccept (docTexts docInit) el = true) ∨
      (∃ el ∈ fallbackTags docModalBtn, fallbackAccept (docTexts docInit) el = true) :=
  claim_C3_acceptance_gates docInit docModalBtn
    ⟨"Special offer", "Special offerBrand new deal todayDetails page",
      [⟨"Details page", "a", "", "/go"⟩]⟩ (by decide)

/-- C1 counterexample: `analyze_modal_dialog` itself returns a ModalFinding
with an empty buttons list (the claim says it would return null instead). -/
theorem claim_C1_counterexample :
    analyze_modal_dialog docInit docModalNoBtn =
      some ⟨"Heads up", "Heads upTotally fresh content", []⟩ := by decide

/-! ## Helper lemmas: one-step congruence of the probe loops -/

theorem clickLoop_cons {E : Type} (url : String) (g : Candidate → Except E Unit)
    (k : Candidate → Except E ClickChanges) (w : Interaction → Except E String)
    (a : Candidate) (cs cs2 : List Candidate)
    (hrec : clickLoop url g k w cs = clickLoop url g k w cs2) :
    clickLoop url g k w (a :: cs) = clickLoop url g k w (a :: cs2) := by
  cases hga : g a with
  | error e => simp [clickLoop, hga, hrec]
  | ok u =>
    cases hka : k a with
    | error e => simp [clickLoop, hga, hka, hrec]
    | ok ch =>
      cases hsk : ch.skipped with
      | true => simp [clickLoop, hga, hka, hsk, hrec]
      | false =>
        cases hna : ch.navigated with
        | true => simp [clickLoop, hga, hka, hsk, hna, hrec]
        | false =>
          cases ham : analyze_modal_dialog ch.initial ch.final with
          | none => simp [clickLoop, hga, hka, hsk, hna, ham, hrec]
          | some m =>
            cases hbe : m.buttons.isEmpty with
            | true => simp [clickLoop, hga, hka, hsk, hna, ham, hbe, hrec]
            | false =>
              cases hws : w (.popup url a m) with
              | error e => simp [clickLoop, hga, hka, hsk, hna, ham, hbe, hws, hrec]
              | ok s =>
                by_cases hse : s = ""
                · simp [clickLoop, hga, hka, hsk, hna, ham, hbe, hws, hse, hrec]
                · simp [clickLoop, hga, hka, hsk, hna, ham, hbe, hws, hse, hrec]

theorem hoverLoop_cons2 {E : Type} (url : String) (hv : Candidate → Except E HoverChanges)
    (w : Interaction → Except E String)
    (sIter : List (String × List String) → List (String × List String))
    (a : Candidate) (cs cs2 : List Candidate)
    (hrec : (hoverLoop url hv w sIter cs).2 = (hoverLoop url hv w sIter cs2).2) :
    (hoverLoop url hv w sIter (a :: cs)).2 = (hoverLoop url hv w sIter (a :: cs2)).2 := by
  cases hha : hv a with
  | error e => simp [hoverLoop, hha, hrec]
  | ok ch =>
    by_cases hne : (compare_doms ch.initial ch.final sIter).isEmpty
    · simp [hoverLoop, hha, hne, hrec]
    · cases hws : w (.hoverMenu url a (compare_doms ch.initial ch.final sIter)) with
      | error e => simp [hoverLoop, hha, hne, hws, hrec]
      | ok s =>
        by_cases hse : s = ""
        · simp [hoverLoop, hha, hne, hws, hse, hrec]
        · simp [hoverLoop, hha, hne, hws, hse]

theorem hoverLoop_cons_shape {E : Type} (url : String) (hv : Candidate → Except E HoverChanges)
    (w : Interaction → Except E String)
    (sIter : List (String × List String) → List (String × List String))
    (a : Candidate) (cs : List Candidate) :
    hoverLoop url hv w sIter (a :: cs) =
        (a :: (hoverLoop url hv w sIter cs).1, (hoverLoop url hv w sIter cs).2) ∨
      ∃ s, hoverLoop url hv w sIter (a :: cs) = ([a], some s) ∧ s ≠ "" := by
  cases hha : hv a with
  | error e => left; simp [hoverLoop, hha]
  | ok ch =>
    by_cases hne : (compare_doms ch.initial ch.final sIter).isEmpty
    · left; simp [hoverLoop, hha, hne]
    · cases hws : w (.hoverMenu url a (compare_doms ch.initial ch.final sIter)) with
      | error e => left; simp [hoverLoop, hha, hne, hws]
      | ok s =>
        by_cases hse : s = ""
        · left; simp [hoverLoop, hha, hne, hws, hse]
        · right; exact ⟨s, by simp [hoverLoop, hha, hne, hws, hse], hse⟩

/-! ## Claim C1: zero-button findings -/

/-- C1 (amended): `analyze_modal_dialog` can return a ModalFinding with an
empty buttons list (see the counterexample); it is the orchestrator
(`generate_tests`, via `if modal_details and modal_details['buttons']`) that
discards such findings — a click probe whose detected modal has no buttons
contributes no scenario, exactly as if the candidate were absent. -/
theorem claim_C1_empty_buttons_discarded {E : Type} (url : String)
    (g : Candidate → Except E Unit) (k : Candidate → Except E ClickChanges)
    (w : Interaction → Except E String) (c : Candidate) (ch : ClickChanges)
    (m : ModalFinding) (l₁ l₂ : List Candidate) (hg : g c = .ok ())
    (hk : k c = .ok ch) (hs : ch.skipped = false) (hn : ch.navigated = false)
    (ha : analyze_modal_dialog ch.initial ch.final = some m) (hb : m.buttons = []) :
    clickLoop url g k w (l₁ ++ c :: l₂) = clickLoop url g k w (l₁ ++ l₂) := by
  induction l₁ with
  | nil => simp [clickLoop, hg, hk, hs, hn, ha, hb]
  | cons a l₁ ih =>
    rw [List.cons_append, List.cons_append]
    exact clickLoop_cons url g k w a _ _ ih

/-- C1 witness: the discard theorem instantiated on the buttonless modal. -/
theorem claim_C1_empty_buttons_discarded_witness :
    clickLoop "u" (fun _ => (.ok () : Except Unit Unit))
        (fun _ => .ok ⟨false, false, docInit, docModalNoBtn⟩) (fun _ => .ok "sc")
        ([] ++ (⟨"x", "a", [], ""⟩ : Candidate) :: []) =
      clickLoop "u" (fun _ => (.ok () : Except Unit Unit))
        (fun _ => .ok ⟨false, false, docInit, docModalNoBtn⟩) (fun _ => .ok "sc")
        ([] ++ []) :=
  claim_C1_empty_buttons_discarded "u" (fun _ => (.ok () : Except Unit Unit))
    (fun _ => .ok ⟨false, false, docInit, docModalNoBtn⟩) (fun _ => .ok "sc")
    ⟨"x", "a", [], ""⟩ ⟨false, false, docInit, docModalNoBtn⟩
    ⟨"Heads up", "Heads upTotally fresh content", []⟩ [] []
    rfl rfl rfl rfl (by decide) rfl

/-! ## Claim C2: per-candidate probe failures are recovered locally -/

theorem clickLoop_error_skip {E : Type} (url : String) (g : Candidate → Except E Unit)
    (k : Candidate → Except E ClickChanges) (w : Interaction → Except E String)
    (c : Candidate) (l₁ l₂ : List Candidate)
    (hf : (∃ e, g c = .error e) ∨ ∃ e, k c = .error e) :
    clickLoop url g k w (l₁ ++ c :: l₂) = clickLoop url g k w (l₁ ++ l₂) := by
  induction l₁ with
  | nil =>
    rcases hf with ⟨e, hf⟩ | ⟨e, hf⟩
    · simp [clickLoop, hf]
    · cases hg : g c with
      | error e2 => simp [clickLoop, hg]
      | ok u => simp [clickLoop, hg, hf]
  | cons a l₁ ih =>
    rw [List.cons_append, List.cons_append]
    exact clickLoop_cons url g k w a _ _ ih

theorem hoverLoop_error_skip {E : Type} (url : String) (hv : Candidate → Except E HoverChanges)
    (w : Interaction → Except E String)
    (sIter : List (String × List String) → List (String × List String))
    (c : Candidate) (l₁ l₂ : List Candidate) (hf : ∃ e, hv c = .error e) :
    (hoverLoop url hv w sIter (l₁ ++ c :: l₂)).2 = (hoverLoop url hv w sIter (l₁ ++ l₂)).2 := by
  induction l₁ with
  | nil =>
    obtain ⟨e, hf⟩ := hf
    simp [hoverLoop, hf]
  | cons a l₁ ih =>
    rw [List.cons_append, List.cons_append]
    exact hoverLoop_cons2 url hv w sIter a _ _ ih

/-- C2: a per-candidate probe failure (navigation, click, hover, snapshot
read — any step modelled as an `Except.error` of its oracle) is recovered
locally: the loops are total (they never propagate the error), the
failing candidate contributes no finding, and each pass produces exactly the
scenarios it would produce with that candidate absent. -/
theorem claim_C2_per_candidate_failure_recovered {E : Type} (url : String)
    (g : Candidate → Except E Unit) (k : Candidate → Except E ClickChanges)
    (w : Interaction → Except E String) (hv : Candidate → Except E HoverChanges)
    (sIter : List (String × List String) → List (String × List String))
    (c c2 : Candidate) (l₁ l₂ m₁ m₂ : List Candidate)
    (hcf : (∃ e, g c = .error e) ∨ ∃ e, k c = .error e)
    (hhf : ∃ e, hv c2 = .error e) :
    clickLoop url g k w (l₁ ++ c :: l₂) = clickLoop url g k w (l₁ ++ l₂) ∧
      (hoverLoop url hv w sIter (m₁ ++ c2 :: m₂)).2 =
        (hoverLoop url hv w sIter (m₁ ++ m₂)).2 :=
  ⟨clickLoop_error_skip url g k w c l₁ l₂ hcf,
    hoverLoop_error_skip url hv w sIter c2 m₁ m₂ hhf⟩

/-- C2 witness: both skip equalities instantiated with always-failing
oracles. -/
theorem claim_C2_per_candidate_failure_recovered_witness :
    clickLoop "u" (fun _ => (.error () : Except Unit Unit))
        (fun _ => .ok ⟨false, false, docInit, docInit⟩) (fun _ => .ok "sc")
        ([] ++ (⟨"x", "a", [], ""⟩ : Candidate) :: []) =
      clickLoop "u" (fun _ => (.error () : Except Unit Unit))
        (fun _ => .ok ⟨false, false, docInit, docInit⟩) (fun _ => .ok "sc") ([] ++ []) ∧
      (hoverLoop "u" (fun _ => (.error () : Except Unit HoverChanges)) (fun _ => .ok "sc") id
          ([] ++ (⟨"x", "a", [], ""⟩ : Candidate) :: [])).2 =
        (hoverLoop "u" (fun _ => (.error () : Except Unit HoverChanges)) (fun _ => .ok "sc") id
          ([] ++ [])).2 :=
  claim_C2_per_candidate_failure_recovered "u" (fun _ => (.error () : Except Unit Unit))
    (fun _ => .ok ⟨false, false, docInit, docInit⟩) (fun _ => .ok "sc")
    (fun _ => (.error () : Except Unit HoverChanges)) id
    ⟨"x", "a", [], ""⟩ ⟨"x", "a", [], ""⟩ [] [] [] []
    (Or.inl ⟨(), rfl⟩) ⟨(), rfl⟩

/-! ## Claim C8: the hover-pass enumeration bound -/

theorem hoverLoop_probed_mem {E : Type} (url : String) (hv : Candidate → Except E HoverChanges)
    (w : Interaction → Except E String)
    (sIter : List (String × List String) → List (String × List String)) :
    ∀ (l : List Candidate) (c : Candidate), c ∈ (hoverLoop url hv w sIter l).1 → c ∈ l := by
  intro l
  induction l with
  | nil => intro c h; simp [hoverLoop] at h
  | cons a cs ih =>
    intro c h
    rcases hoverLoop_cons_shape url hv w sIter a cs with hs | ⟨s, hs, _⟩
    · rw [hs] at h
      rcases List.mem_cons.mp h with h | h
      · exact h ▸ List.mem_cons_self a cs
      · exact List.mem_cons_of_mem a (ih c h)
    · rw [hs] at h
      simp only [List.mem_singleton] at h
      exact h ▸ List.mem_cons_self a cs

theorem hoverLoop_probed_length {E : Type} (url : String)
    (hv : Candidate → Except E HoverChanges) (w : Interaction → Except E String)
    (sIter : List (String × List String) → List (String × List String)) :
    ∀ l : List Candidate, (hoverLoop url hv w sIter l).1.length ≤ l.length := by
  intro l
  induction l with
  | nil => simp [hoverLoop]
  | cons a cs ih =>
    rcases hoverLoop_cons_shape url hv w sIter a cs with hs | ⟨s, hs, _⟩
    · rw [hs]
      simp only [List.length_cons]
      omega
    · rw [hs]
      have h0 : ([] : List Candidate).length = 0 := rfl
      simp only [List.length_cons]
      omega

/-- C8 (amended): the hover pass considers at most 30 candidates (the source
truncates with `interactive_elements[:30]`, not 20): the probed list has at
most 30 entries and every probed candidate lies within the first 30 of the
enumerated order. -/
theorem claim_C8_hover_bound {E : Type} (url : String)
    (hv : Candidate → Except E HoverChanges) (w : Interaction → Except E String)
    (sIter : List (String × List String) → List (String × List String))
    (l : List Candidate) :
    (hoverPhase url hv w sIter l).1.length ≤ 30 ∧
      ∀ c ∈ (hoverPhase url hv w sIter l).1, c ∈ l.take 30 := by
  unfold hoverPhase
  constructor
  · have h1 := hoverLoop_probed_length url hv w sIter (l.take 30)
    have h2 : (l.take 30).length ≤ 30 := by
      rw [List.length_take]
      omega
    omega
  · intro c hc
    exact hoverLoop_probed_mem url hv w sIter (l.take 30) c hc

/-- C8 counterexample: with 21 candidates and a hover oracle that always
fails, the hover pass probes all 21 of them — more than the 20 the claim
allows. -/
theorem claim_C8_counterexample :
    ((hoverPhase "u" (fun _ => (.error () : Except Unit HoverChanges)) (fun _ => .ok "") id
      (List.replicate 21 (⟨"x", "a", [], ""⟩ : Candidate))).1).length = 21 := by decide

/-- C8 witness: the bound theorem instantiated on the 21-candidate run. -/
theorem claim_C8_hover_bound_witness :
    (⟨"x", "a", [], ""⟩ : Candidate) ∈
      (List.replicate 21 (⟨"x", "a", [], ""⟩ : Candidate)).take 30 :=
  (claim_C8_hover_bound "u" (fun _ => (.error () : Except Unit HoverChanges)) (fun _ => .ok "")
      id (List.replicate 21 ⟨"x", "a", [], ""⟩)).2
    ⟨"x", "a", [], ""⟩ (by decide)

/-! ## Claim C9: scenario validation -/

theorem clickLoop_some_ne_empty {E : Type} (url : String) (g : Candidate → Except E Unit)
    (k : Candidate → Except E ClickChanges) (w : Interaction → Except E String) :
    ∀ (l : List Candidate) (s : String), clickLoop url g k w l = some s → s ≠ "" := by
  intro l
  induction l with
  | nil => intro s h; simp [clickLoop] at h
  | cons a cs ih =>
    intro s h
    cases hga : g a with
    | error e => rw [clickLoop, hga] at h; exact ih s h
    | ok u =>
      cases hka : k a with
      | error e => rw [clickLoop, hga, hka] at h; exact ih s h
      | ok ch =>
        cases hsk : ch.skipped with
        | true => simp [clickLoop, hga, hka, hsk] at h; exact ih s h
        | false =>
          cases hna : ch.navigated with
          | true => simp [clickLoop, hga, hka, hsk, hna] at h; exact ih s h
          | false =>
            cases ham : analyze_modal_dialog ch.initial ch.final with
            | none => simp [clickLoop, hga, hka, hsk, hna, ham] at h; exact ih s h
            | some m =>
              cases hbe : m.buttons.isEmpty with
              | true => simp [clickLoop, hga, hka, hsk, hna, ham, hbe] at h; exact ih s h
              | false =>
                cases hws : w (.popup url a m) with
                | error e =>
                  simp [clickLoop, hga, hka, hsk, hna, ham, hbe, hws] at h
                  exact ih s h
                | ok s2 =>
                  by_cases hse : s2 = ""
                  · simp [clickLoop, hga, hka, hsk, hna, ham, hbe, hws, hse] at h
                    exact ih s h
                  · simp [clickLoop, hga, hka, hsk, hna, ham, hbe, hws, hse] at h
                    exact h ▸ hse

theorem hoverLoop_some_ne_empty {E : Type} (url : String)
    (hv : Candidate → Except E HoverChanges) (w : Interaction → Except E String)
    (sIter : List (String × List String) → List (String × List String)) :
    ∀ (l : List Candidate) (s : String), (hoverLoop url hv w sIter l).2 = some s → s ≠ "" := by
  intro l
  induction l with
  | nil => intro s h; simp [hoverLoop] at h
  | cons a cs ih =>
    intro s h
    rcases hoverLoop_cons_shape url hv w sIter a cs with hs | ⟨s2, hs, hne⟩
    · rw [hs] at h
      exact ih s h
    · rw [hs] at h
      simp only [Option.some.injEq] at h
      exact h ▸ hne

/-- C9 (amended): the adapter validates only that the scenario text returned
by the writer is non-empty (Python truthiness `if scenario:`); empty text is
discarded, and every scenario in the final output is non-empty.  No
"Scenario:" marker check is performed (see the counterexample). -/
theorem claim_C9_scenarios_nonempty {E : Type} (url : String)
    (g : Candidate → Except E Unit) (k : Candidate → Except E ClickChanges)
    (w : Interaction → Except E String) (hv : Candidate → Except E HoverChanges)
    (sIter : List (String × List String) → List (String × List String))
    (clicks hovers : List Candidate) (s : String)
    (h : s ∈ generate_tests url g k w hv sIter clicks hovers) : s ≠ "" := by
  unfold generate_tests at h
  rcases List.mem_append.mp h with h | h
  · rw [Option.mem_toList, Option.mem_def] at h
    exact clickLoop_some_ne_empty url g k w _ s h
  · rw [Option.mem_toList, Option.mem_def] at h
    exact hoverLoop_some_ne_empty url hv w sIter _ s h

/-- C9 counterexample: a writer returning "hello" — which lacks the literal
"Scenario:" marker — still lands in the final output: the claimed marker
validation does not exist in the code. -/
theorem claim_C9_counterexample :
    generate_tests "u" (fun _ => (.ok () : Except Unit Unit))
        (fun _ => .ok ⟨false, false, docInit, docModalBtn⟩) (fun _ => .ok "hello")
        (fun _ => .error ()) id [⟨"x", "a", [], ""⟩] [] = ["hello"] ∧
      strContains "hello" "Scenario:" = false := by decide

/-- C9 witness: the non-emptiness theorem instantiated on the same run. -/
theorem claim_C9_scenarios_nonempty_witness : ("hello" : String) ≠ "" :=
  claim_C9_scenarios_nonempty "u" (fun _ => (.ok () : Except Unit Unit))
    (fun _ => .ok ⟨false, false, docInit, docModalBtn⟩) (fun _ => .ok "hello")
    (fun _ => .error ()) id [⟨"x", "a", [], ""⟩] [] "hello" (by decide)

/-! ## Claim C6: determinism relative to the set-iteration order -/

theorem perm_isEmpty_eq {α : Type} (l₁ l₂ : List α) (h : List.Perm l₁ l₂) :
    l₁.isEmpty = l₂.isEmpty := by
  cases hl : l₁ with
  | nil =>
    subst hl
    rw [h.symm.eq_nil]
  | cons a t =>
    subst hl
    cases hl2 : l₂ with
    | nil => exact absurd (hl2 ▸ h).eq_nil (by simp)
    | cons b u => rfl

/-- C6 (amended): the candidate enumeration is a function of the markup only
up to the hash-dependent iteration order of the `found_elements` set: any two
iteration orders that are permutations of each other yield candidate lists
that are permutations of each other (so two runs sharing one process's hash
seed produce identical finding sets), but the enumeration order itself — and,
past ten new structural signatures, even the set of structural-diff items
(see the counterexample) — is not determined by the markup alone. -/
theorem claim_C6_order_perm (root : Dom) (f g : List Dom → List Dom)
    (h : List.Perm (f (foundElements root)) (g (foundElements root))) :
    List.Perm (find_potential_interactive_elements root f)
      (find_potential_interactive_elements root g) := by
  have hmain : List.Perm (fpieMain root f) (fpieMain root g) := by
    unfold fpieMain
    exact h.filterMap _
  unfold find_potential_interactive_elements
  rw [perm_isEmpty_eq _ _ hmain]
  by_cases he : (fpieMain root g).isEmpty
  · simp only [if_pos he]
    exact List.Perm.refl _
  · simp only [if_neg he]
    exact hmain

/-- C6 counterexample: `compare_doms` on fixed snapshots with eleven new
structural signatures emits different item sets under two legitimate
iteration orders of the `new_struct` set (`id` and `List.reverse`, which are
permutations of each other): the `[:10]` truncation makes even the emitted
set depend on the hash-determined order, so the diff result is not a
deterministic function of the input markup. -/
theorem claim_C6_counterexample :
    compare_doms docInit docStruct id ≠ compare_doms docInit docStruct List.reverse ∧
      (⟨"", "div", "", [String.mk (List.replicate 11 'c')]⟩ : Revealed)
          ∈ compare_doms docInit docStruct List.reverse ∧
      ¬ (⟨"", "div", "", [String.mk (List.replicate 11 'c')]⟩ : Revealed)
          ∈ compare_doms docInit docStruct id := by decide

/-- C6 witness: the permutation theorem instantiated with the identity and
reversal orders on the duplicate-anchor page. -/
theorem claim_C6_order_perm_witness :
    List.Perm (find_potential_interactive_elements docDup id)
      (find_potential_interactive_elements docDup List.reverse) :=
  claim_C6_order_perm docDup id List.reverse (by decide)
